import Mathlib

/-!
# cert-manager-webhook-anexia: the DNS-01 solver of `main.go`

A shallow embedding of `loadConfig`, `getToken`, `Present` and `CleanUp`.

* Go strings are sequences; every string operation the program uses
  (`strings.HasPrefix`, `strings.HasSuffix`, `strings.TrimPrefix`,
  `strings.TrimSuffix`, `util.UnFqdn`, `==`) acts on the sequence position by
  position, so a string is a `List Char`.  Only two elements are ever inspected,
  the dot and the double quote; nothing below depends on what the other
  elements are.
* A Go `error` is its message; the nil-able `error` is `Option GoError`.
* The collaborators (JSON decoder, secret store, provider client) are the
  fields of `Env`.  Within one call of `Present` or `CleanUp` each of them is
  consulted at most once, so a function per collaborator describes every
  possible response.  The collaborator calls a run makes are recorded, in
  order, in a list of `Call`s returned next to the result.
* Logging (`klog`) and the 30 second timeout contexts are not modelled.
  `Initialize` is taken to have run, so the secret-store client exists.
-/

namespace AnexiaWebhook

/-- A Go string. -/
abbrev GoString := List Char

/-- A Go error value, represented by its message. -/
abbrev GoError := List Char

/-- The double quote character that the provider wraps record data in. -/
def quoteChar : Char := Char.ofNat 34

/-- The one-character string made of a double quote. -/
def quoteStr : GoString := [quoteChar]

/-! ## Go library functions used by the program -/

/-- Go `strings.HasPrefix`: `len(s) >= len(p) && s[:len(p)] == p`. -/
def HasPrefix (s p : GoString) : Bool :=
  decide (p.length ≤ s.length) && (s.take p.length == p)

/-- Go `strings.HasSuffix`: `len(s) >= len(x) && s[len(s)-len(x):] == x`. -/
def HasSuffix (s x : GoString) : Bool :=
  decide (x.length ≤ s.length) && (s.drop (s.length - x.length) == x)

/-- Go `strings.TrimPrefix`: drops `p` from the front of `s` when `s` starts
with it, otherwise returns `s`. -/
def TrimPrefix (s p : GoString) : GoString :=
  if HasPrefix s p then s.drop p.length else s

/-- Go `strings.TrimSuffix`: drops `x` from the end of `s` when `s` ends with
it, otherwise returns `s`. -/
def TrimSuffix (s x : GoString) : GoString :=
  if HasSuffix s x then s.take (s.length - x.length) else s

/-- Modelled from the spec: `util.UnFqdn` of cert-manager is imported by
`main.go` and not part of the repository; it removes one trailing dot
(`n := len(name); if n != 0 && name[n-1] == '.' then name[:n-1] else name`). -/
def UnFqdn (name : GoString) : GoString :=
  if name.length ≠ 0 ∧ name.get? (name.length - 1) = some '.' then
    name.take (name.length - 1)
  else name

/-! ## Data model -/

/-- The fields of `v1alpha1.ChallengeRequest` that the solver reads.  `Config`
is the nullable `*extapi.JSON`; `some raw` carries its `Raw` bytes. -/
structure ChallengeRequest where
  ResolvedFQDN : GoString
  ResolvedZone : GoString
  Key : GoString
  Config : Option GoString
deriving DecidableEq

/-- The struct `anexiaDNSProviderConfig`. -/
structure anexiaDNSProviderConfig where
  ApiUrl : GoString
  SecretRef : GoString
  SecretRefNamespace : GoString
  SecretKey : GoString
deriving DecidableEq

/-- The struct `anxcloudZone.RecordRequest` as `Present` fills it (`Type_` is
its field `Type`). -/
structure RecordRequest where
  Name : GoString
  Type_ : GoString
  RData : GoString
  TTL : Nat
deriving DecidableEq

/-- The fields of `anxcloudZone.Record` that `CleanUp` reads. -/
structure Record where
  Name : GoString
  RData : GoString
  Identifier : GoString
deriving DecidableEq

/-- The handle returned by `anxcloudClient.New`. -/
structure Client where
  handle : Nat
deriving DecidableEq

/-- The `Data` map of a Kubernetes secret: field name to bytes. -/
abbrev SecretData := GoString → Option GoString

/-- A call made to a collaborator. -/
inductive Call where
  | getSecret (ns name : GoString)
  | newClient (token : GoString)
  | createRecord (zone : GoString) (req : RecordRequest)
  | listRecords (zone : GoString)
  | deleteRecord (zone : GoString) (identifier : GoString)
deriving DecidableEq

/-- The responses of the collaborators during one call of the solver. -/
structure Env where
  /-- The function `json.Unmarshal(raw, &cfg)`: the struct after decoding and
  the error. -/
  unmarshal : GoString → anexiaDNSProviderConfig → anexiaDNSProviderConfig × Option GoError
  /-- The call `Secrets(namespace).Get(ctx, name, ...)`. -/
  getSecret : GoString → GoString → Except GoError SecretData
  /-- The call `anxcloudClient.New(anxcloudClient.TokenFromString(token))`. -/
  newClient : GoString → Except GoError Client
  /-- The call `NewRecord(ctx, zone, request)`; the created record is discarded. -/
  newRecord : Client → GoString → RecordRequest → Option GoError
  /-- The call `ListRecords(ctx, zone)`. -/
  listRecords : Client → GoString → Except GoError (List Record)
  /-- The call `DeleteRecord(ctx, zone, identifier)`. -/
  deleteRecord : Client → GoString → GoString → Option GoError

/-! ## The program -/

/-- The function `loadConfig`. -/
def loadConfig (env : Env) (cfgJSON : Option GoString) :
    anexiaDNSProviderConfig × Option GoError :=
  let cfg : anexiaDNSProviderConfig := ⟨[], [], [], []⟩
  match cfgJSON with
  | none => (cfg, none)
  | some raw =>
    match env.unmarshal raw cfg with
    | (cfg1, some err) => (cfg1, some ("error decoding solver config: ".toList ++ err))
    | (cfg1, none) => (cfg1, none)

/-- The function `getToken`: the token, the error, and the calls made. -/
def getToken (env : Env) (cfg : anexiaDNSProviderConfig) :
    (GoString × Option GoError) × List Call :=
  match env.getSecret cfg.SecretRefNamespace cfg.SecretRef with
  | .error err => (([], some err), [Call.getSecret cfg.SecretRefNamespace cfg.SecretRef])
  | .ok data =>
    match data cfg.SecretKey with
    | none =>
      (([], some ("key ".toList ++ cfg.SecretKey ++ " not found in secret data".toList)),
        [Call.getSecret cfg.SecretRefNamespace cfg.SecretRef])
    | some token_data =>
      ((token_data, none), [Call.getSecret cfg.SecretRefNamespace cfg.SecretRef])

/-- The method `Present`: the returned error and the calls made. -/
def Present (env : Env) (ch : ChallengeRequest) : Option GoError × List Call :=
  match loadConfig env ch.Config with
  | (_, some err) => (some err, [])
  | (cfg, none) =>
    let tok := getToken env cfg
    let token := tok.1.1
    match env.newClient token with
    | .error err => (some err, tok.2 ++ [Call.newClient token])
    | .ok client =>
      let recordRequest : RecordRequest :=
        { Name := UnFqdn (TrimSuffix ch.ResolvedFQDN ch.ResolvedZone)
          Type_ := "TXT".toList
          RData := ch.Key
          TTL := 120 }
      let calls := tok.2 ++ [Call.newClient token,
        Call.createRecord (UnFqdn ch.ResolvedZone) recordRequest]
      match env.newRecord client (UnFqdn ch.ResolvedZone) recordRequest with
      | some err => (some err, calls)
      | none => (none, calls)

/-- The value `CleanUp` compares with the key: the body of the `if` that works
around the quotes inserted by the provider. -/
def strippedRData (rdata : GoString) : GoString :=
  if HasPrefix rdata quoteStr && HasSuffix rdata quoteStr then
    let rdata1 := TrimPrefix rdata quoteStr
    TrimSuffix rdata1 quoteStr
  else rdata

/-- The `for _, r := range records` loop of `CleanUp`. -/
def cleanUpLoop (env : Env) (client : Client) (ch : ChallengeRequest) :
    List Record → Option GoError × List Call
  | [] => (some ("could not find and delete record for ".toList ++ ch.ResolvedFQDN), [])
  | r :: rest =>
    if r.Name = UnFqdn (TrimSuffix ch.ResolvedFQDN ch.ResolvedZone)
        ∧ strippedRData r.RData = ch.Key then
      match env.deleteRecord client (UnFqdn ch.ResolvedZone) r.Identifier with
      | some err => (some err, [Call.deleteRecord (UnFqdn ch.ResolvedZone) r.Identifier])
      | none => (none, [Call.deleteRecord (UnFqdn ch.ResolvedZone) r.Identifier])
    else cleanUpLoop env client ch rest

/-- The method `CleanUp`: the returned error and the calls made. -/
def CleanUp (env : Env) (ch : ChallengeRequest) : Option GoError × List Call :=
  match loadConfig env ch.Config with
  | (_, some err) => (some err, [])
  | (cfg, none) =>
    let tok := getToken env cfg
    let token := tok.1.1
    match env.newClient token with
    | .error err => (some err, tok.2 ++ [Call.newClient token])
    | .ok client =>
      let calls := tok.2 ++ [Call.newClient token, Call.listRecords (UnFqdn ch.ResolvedZone)]
      match env.listRecords client (UnFqdn ch.ResolvedZone) with
      | .error err => (some err, calls)
      | .ok records =>
        let res := cleanUpLoop env client ch records
        (res.1, calls ++ res.2)

/-- The selection condition of the loop of `CleanUp`, as a predicate on a
record: the name is the request's host name and the data, after the quote
workaround, is the key. -/
def recordMatches (ch : ChallengeRequest) (r : Record) : Prop :=
  r.Name = UnFqdn (TrimSuffix ch.ResolvedFQDN ch.ResolvedZone)
    ∧ strippedRData r.RData = ch.Key

instance (ch : ChallengeRequest) (r : Record) : Decidable (recordMatches ch r) := by
  unfold recordMatches
  exact inferInstance

/-- Recognises a `CreateRecord` call. -/
def Call.isCreateRecord : Call → Bool
  | .createRecord _ _ => true
  | _ => false

/-- Recognises a `DeleteRecord` call. -/
def Call.isDeleteRecord : Call → Bool
  | .deleteRecord _ _ => true
  | _ => false

/-- Recognises a `ListRecords` call. -/
def Call.isListRecords : Call → Bool
  | .listRecords _ => true
  | _ => false

/-! ## Concrete collaborators used to exercise the theorems -/

/-- A decoder that accepts the JSON text `null` (which leaves the struct
untouched) and rejects everything else as truncated input. -/
def demoUnmarshal (raw : GoString) (cfg : anexiaDNSProviderConfig) :
    anexiaDNSProviderConfig × Option GoError :=
  if raw = "null".toList then (cfg, none)
  else if raw = "password-config".toList then
    ({ cfg with SecretRef := "anexia".toList, SecretRefNamespace := "cert-manager".toList,
                SecretKey := "password".toList }, none)
  else (cfg, some "unexpected end of JSON input".toList)

/-- The secret store holding one secret, `anexia` in namespace `cert-manager`,
with the single field `token`. -/
def demoGetSecret (ns name : GoString) : Except GoError SecretData :=
  if ns = "cert-manager".toList ∧ name = "anexia".toList then
    .ok (fun k => if k = "token".toList then some "s3cr3t".toList else none)
  else .error ("secrets ".toList ++ quoteStr ++ name ++ quoteStr ++ " not found".toList)

/-- The record list of the clean-up scenario: the challenge record, its data
wrapped in quotes by the provider, and an unrelated record. -/
def demoRecords : List Record :=
  [ { Name := "_acme-challenge".toList
      RData := quoteStr ++ "abc123".toList ++ quoteStr
      Identifier := "r1".toList },
    { Name := "other".toList, RData := "xyz".toList, Identifier := "r2".toList } ]

/-- A provider that accepts every call and lists `demoRecords`; the secret
store knows no secret `""` in namespace `""`. -/
def demoEnv : Env where
  unmarshal := demoUnmarshal
  getSecret := demoGetSecret
  newClient := fun _ => .ok ⟨0⟩
  newRecord := fun _ _ _ => none
  listRecords := fun _ _ => .ok demoRecords
  deleteRecord := fun _ _ _ => none

/-- A zone whose records miss the request narrowly: one has the name but other
data, one has the data but another name. -/
def nearMissEnv : Env :=
  { demoEnv with
    listRecords := fun _ _ => .ok
      [ { Name := "_acme-challenge".toList, RData := "zzz".toList, Identifier := "r3".toList },
        { Name := "other".toList, RData := "abc123".toList, Identifier := "r4".toList } ] }

/-- A zone holding one record, under the challenge name, whose data is the
single character `"`. -/
def loneQuoteEnv : Env :=
  { demoEnv with
    listRecords := fun _ _ => .ok
      [ { Name := "_acme-challenge".toList, RData := quoteStr, Identifier := "r9".toList } ] }

/-- The request of the scenarios with the empty string as key. -/
def emptyKeyRequest : ChallengeRequest where
  ResolvedFQDN := "_acme-challenge.example.com.".toList
  ResolvedZone := "example.com.".toList
  Key := []
  Config := none

/-- The request of the scenarios, without a config blob. -/
def demoRequest : ChallengeRequest where
  ResolvedFQDN := "_acme-challenge.example.com.".toList
  ResolvedZone := "example.com.".toList
  Key := "abc123".toList
  Config := none

/-- A request whose config blob is the empty byte string, which is not JSON. -/
def badConfigRequest : ChallengeRequest where
  ResolvedFQDN := "_acme-challenge.example.com.".toList
  ResolvedZone := "example.com.".toList
  Key := "abc123".toList
  Config := some []

/-- A request whose config blob names the secret `anexia` in namespace
`cert-manager` and the field `password`, which that secret does not have. -/
def passwordConfigRequest : ChallengeRequest where
  ResolvedFQDN := "_acme-challenge.example.com.".toList
  ResolvedZone := "example.com.".toList
  Key := "abc123".toList
  Config := some "password-config".toList

/-- A config naming a secret that the store of `demoEnv` does not hold. -/
def missingSecretConfig : anexiaDNSProviderConfig where
  ApiUrl := []
  SecretRef := "missing".toList
  SecretRefNamespace := "cert-manager".toList
  SecretKey := "token".toList

/-- A config naming the secret and the field that the store of `demoEnv` holds. -/
def goodSecretConfig : anexiaDNSProviderConfig where
  ApiUrl := []
  SecretRef := "anexia".toList
  SecretRefNamespace := "cert-manager".toList
  SecretKey := "token".toList

/-- The collaborators of `demoEnv`, except that the client constructor rejects
the empty token. -/
def strictClientEnv : Env :=
  { demoEnv with
    newClient := fun token =>
      if token = [] then .error "could not configure client".toList else .ok ⟨0⟩ }

/-- The collaborators of `demoEnv`, except that the client built from the empty
token is refused by the provider: creating and listing records fail for it. -/
def unauthorizedEnv : Env :=
  { demoEnv with
    newClient := fun token => if token = [] then .ok ⟨0⟩ else .ok ⟨1⟩
    newRecord := fun client _ _ =>
      if client.handle = 0 then some "401 Unauthorized".toList else none
    listRecords := fun client _ =>
      if client.handle = 0 then .error "401 Unauthorized".toList else .ok demoRecords }

/-- Modelled from the spec: the provider client library is imported by `main.go`
and not part of the repository; of its behaviour on the empty token the
specification says that it ends in a downstream failure, a client set-up error or
a transport error.  Either the constructor refuses the empty token, or the client
it builds fails on `NewRecord` and on `ListRecords`. -/
def emptyTokenFails (env : Env) : Prop :=
  ∀ client, env.newClient [] = .ok client →
    (∀ zone req, env.newRecord client zone req ≠ none) ∧
    (∀ zone, ∃ err, env.listRecords client zone = .error err)

/-! ## Lemmas on the string functions -/

theorem HasSuffix_append (a z : GoString) : HasSuffix (a ++ z) z = true := by
  simp [HasSuffix]

theorem TrimSuffix_append (a z : GoString) : TrimSuffix (a ++ z) z = a := by
  simp [TrimSuffix, HasSuffix_append]

theorem HasPrefix_append (p a : GoString) : HasPrefix (p ++ a) p = true := by
  simp [HasPrefix]

theorem TrimPrefix_append (p a : GoString) : TrimPrefix (p ++ a) p = a := by
  simp [TrimPrefix, HasPrefix_append]

theorem UnFqdn_append_dot (h : GoString) : UnFqdn (h ++ ['.']) = h := by
  simp [UnFqdn]

theorem HasPrefix_quote_iff (s : GoString) :
    HasPrefix s quoteStr = true ↔ ∃ t, s = quoteChar :: t := by
  cases s with
  | nil => simp [HasPrefix, quoteStr]
  | cons c t => simp [HasPrefix, quoteStr]

theorem TrimSuffix_length_le (s x : GoString) : (TrimSuffix s x).length ≤ s.length := by
  unfold TrimSuffix
  split
  · simp
  · exact Nat.le_refl _

theorem strippedRData_wrapped (k : GoString) :
    strippedRData (quoteStr ++ k ++ quoteStr) = k := by
  have hp : HasPrefix (quoteStr ++ k ++ quoteStr) quoteStr = true := by
    rw [List.append_assoc]; exact HasPrefix_append _ _
  have hs : HasSuffix (quoteStr ++ k ++ quoteStr) quoteStr = true := HasSuffix_append _ _
  unfold strippedRData
  rw [hp, hs]
  simp only [Bool.and_self, if_true]
  rw [List.append_assoc, TrimPrefix_append, TrimSuffix_append]

theorem strippedRData_unwrapped (r : GoString)
    (h : ¬ (HasPrefix r quoteStr = true ∧ HasSuffix r quoteStr = true)) :
    strippedRData r = r := by
  unfold strippedRData
  rw [if_neg]
  simpa using h

theorem strippedRData_length_lt (r : GoString)
    (h : HasPrefix r quoteStr = true ∧ HasSuffix r quoteStr = true) :
    (strippedRData r).length < r.length := by
  obtain ⟨t, ht⟩ := (HasPrefix_quote_iff r).mp h.1
  unfold strippedRData
  rw [h.1, h.2]
  simp only [Bool.and_self, if_true]
  have hp : TrimPrefix r quoteStr = t := by
    rw [ht]; exact TrimPrefix_append quoteStr t
  rw [hp]
  have := TrimSuffix_length_le t quoteStr
  rw [ht]
  simp only [List.length_cons]
  omega

theorem HasSuffix_elim (s x : GoString) (h : HasSuffix s x = true) : ∃ a, s = a ++ x := by
  unfold HasSuffix at h
  simp only [Bool.and_eq_true, decide_eq_true_eq, beq_iff_eq] at h
  refine ⟨s.take (s.length - x.length), ?_⟩
  conv_lhs => rw [← List.take_append_drop (s.length - x.length) s]
  rw [h.2]

/-- Record data of at least two characters that begins and ends with a quote is the
quote-wrapped form of the string that `strippedRData` returns. -/
theorem strippedRData_of_wrapped (r : GoString)
    (h : HasPrefix r quoteStr = true ∧ HasSuffix r quoteStr = true) (hlen : 2 ≤ r.length) :
    r = quoteStr ++ strippedRData r ++ quoteStr := by
  obtain ⟨t, ht⟩ := (HasPrefix_quote_iff r).mp h.1
  obtain ⟨a, ha⟩ := HasSuffix_elim r quoteStr h.2
  cases a with
  | nil =>
    rw [ha] at hlen
    simp [quoteStr] at hlen
  | cons c k =>
    have hc : r = quoteStr ++ k ++ quoteStr := by
      rw [ha] at ht
      simp only [List.cons_append, List.cons.injEq] at ht
      rw [ha, ht.1]
      rfl
    have hk := strippedRData_wrapped k
    rw [← hc] at hk
    rw [hk]
    exact hc

/-! ## Lemmas on the program -/

theorem getToken_calls (env : Env) (cfg : anexiaDNSProviderConfig) :
    (getToken env cfg).2 = [Call.getSecret cfg.SecretRefNamespace cfg.SecretRef] := by
  unfold getToken
  split
  · rfl
  · split <;> rfl

theorem Present_decode_error (env : Env) (ch : ChallengeRequest) (err : GoError)
    (hcfg : (loadConfig env ch.Config).2 = some err) :
    Present env ch = (some err, []) := by
  unfold Present
  rcases h : loadConfig env ch.Config with ⟨c, _ | e⟩
  · rw [h] at hcfg; cases hcfg
  · rw [h] at hcfg; cases hcfg; rfl

theorem CleanUp_decode_error (env : Env) (ch : ChallengeRequest) (err : GoError)
    (hcfg : (loadConfig env ch.Config).2 = some err) :
    CleanUp env ch = (some err, []) := by
  unfold CleanUp
  rcases h : loadConfig env ch.Config with ⟨c, _ | e⟩
  · rw [h] at hcfg; cases hcfg
  · rw [h] at hcfg; cases hcfg; rfl

theorem Present_client_error (env : Env) (ch : ChallengeRequest) (err : GoError)
    (hcfg : (loadConfig env ch.Config).2 = none)
    (hcl : env.newClient (getToken env (loadConfig env ch.Config).1).1.1 = .error err) :
    Present env ch = (some err,
      (getToken env (loadConfig env ch.Config).1).2 ++
        [Call.newClient (getToken env (loadConfig env ch.Config).1).1.1]) := by
  unfold Present
  rcases h : loadConfig env ch.Config with ⟨c, _ | e⟩
  · rw [h] at hcl
    simp only [hcl]
  · rw [h] at hcfg; cases hcfg

theorem Present_client_ok (env : Env) (ch : ChallengeRequest) (client : Client)
    (hcfg : (loadConfig env ch.Config).2 = none)
    (hcl : env.newClient (getToken env (loadConfig env ch.Config).1).1.1 = .ok client) :
    Present env ch =
      (env.newRecord client (UnFqdn ch.ResolvedZone)
          ⟨UnFqdn (TrimSuffix ch.ResolvedFQDN ch.ResolvedZone), "TXT".toList, ch.Key, 120⟩,
        (getToken env (loadConfig env ch.Config).1).2 ++
          [Call.newClient (getToken env (loadConfig env ch.Config).1).1.1,
           Call.createRecord (UnFqdn ch.ResolvedZone)
            ⟨UnFqdn (TrimSuffix ch.ResolvedFQDN ch.ResolvedZone), "TXT".toList, ch.Key, 120⟩]) := by
  unfold Present
  rcases h : loadConfig env ch.Config with ⟨c, _ | e⟩
  · rw [h] at hcl
    simp only [hcl]
    split
    · next e he => simp only [he]
    · next he => simp only [he]
  · rw [h] at hcfg; cases hcfg

theorem CleanUp_client_error (env : Env) (ch : ChallengeRequest) (err : GoError)
    (hcfg : (loadConfig env ch.Config).2 = none)
    (hcl : env.newClient (getToken env (loadConfig env ch.Config).1).1.1 = .error err) :
    CleanUp env ch = (some err,
      (getToken env (loadConfig env ch.Config).1).2 ++
        [Call.newClient (getToken env (loadConfig env ch.Config).1).1.1]) := by
  unfold CleanUp
  rcases h : loadConfig env ch.Config with ⟨c, _ | e⟩
  · rw [h] at hcl
    simp only [hcl]
  · rw [h] at hcfg; cases hcfg

theorem CleanUp_list_error (env : Env) (ch : ChallengeRequest) (client : Client)
    (err : GoError)
    (hcfg : (loadConfig env ch.Config).2 = none)
    (hcl : env.newClient (getToken env (loadConfig env ch.Config).1).1.1 = .ok client)
    (hlist : env.listRecords client (UnFqdn ch.ResolvedZone) = .error err) :
    CleanUp env ch = (some err,
      (getToken env (loadConfig env ch.Config).1).2 ++
        [Call.newClient (getToken env (loadConfig env ch.Config).1).1.1,
         Call.listRecords (UnFqdn ch.ResolvedZone)]) := by
  unfold CleanUp
  rcases h : loadConfig env ch.Config with ⟨c, _ | e⟩
  · rw [h] at hcl
    simp only [hcl, hlist]
  · rw [h] at hcfg; cases hcfg

theorem CleanUp_list_ok (env : Env) (ch : ChallengeRequest) (client : Client)
    (records : List Record)
    (hcfg : (loadConfig env ch.Config).2 = none)
    (hcl : env.newClient (getToken env (loadConfig env ch.Config).1).1.1 = .ok client)
    (hlist : env.listRecords client (UnFqdn ch.ResolvedZone) = .ok records) :
    CleanUp env ch = ((cleanUpLoop env client ch records).1,
      (getToken env (loadConfig env ch.Config).1).2 ++
        [Call.newClient (getToken env (loadConfig env ch.Config).1).1.1,
         Call.listRecords (UnFqdn ch.ResolvedZone)] ++
        (cleanUpLoop env client ch records).2) := by
  unfold CleanUp
  rcases h : loadConfig env ch.Config with ⟨c, _ | e⟩
  · rw [h] at hcl
    simp only [hcl, hlist]
  · rw [h] at hcfg; cases hcfg

theorem cleanUpLoop_skip (env : Env) (client : Client) (ch : ChallengeRequest)
    (r : Record) (rest : List Record) (hr : ¬ recordMatches ch r) :
    cleanUpLoop env client ch (r :: rest) = cleanUpLoop env client ch rest := by
  unfold recordMatches at hr
  rw [cleanUpLoop, if_neg hr]

theorem cleanUpLoop_hit (env : Env) (client : Client) (ch : ChallengeRequest)
    (r : Record) (rest : List Record) (hr : recordMatches ch r) :
    cleanUpLoop env client ch (r :: rest) =
      (env.deleteRecord client (UnFqdn ch.ResolvedZone) r.Identifier,
        [Call.deleteRecord (UnFqdn ch.ResolvedZone) r.Identifier]) := by
  unfold recordMatches at hr
  rw [cleanUpLoop, if_pos hr]
  split
  · next e he => rw [he]
  · next he => rw [he]

theorem cleanUpLoop_no_match (env : Env) (client : Client) (ch : ChallengeRequest)
    (records : List Record) (hno : ∀ r ∈ records, ¬ recordMatches ch r) :
    cleanUpLoop env client ch records =
      (some ("could not find and delete record for ".toList ++ ch.ResolvedFQDN), []) := by
  induction records with
  | nil => rfl
  | cons r rest ih =>
    rw [cleanUpLoop_skip env client ch r rest (hno r (List.mem_cons_self r rest))]
    exact ih (fun x hx => hno x (List.mem_cons_of_mem r hx))

theorem cleanUpLoop_first_match (env : Env) (client : Client) (ch : ChallengeRequest)
    (pre : List Record) (r : Record) (post : List Record)
    (hpre : ∀ x ∈ pre, ¬ recordMatches ch x) (hr : recordMatches ch r) :
    cleanUpLoop env client ch (pre ++ r :: post) =
      (env.deleteRecord client (UnFqdn ch.ResolvedZone) r.Identifier,
        [Call.deleteRecord (UnFqdn ch.ResolvedZone) r.Identifier]) := by
  induction pre with
  | nil => exact cleanUpLoop_hit env client ch r post hr
  | cons x rest ih =>
    rw [List.cons_append, cleanUpLoop_skip env client ch x _ (hpre x (List.mem_cons_self x rest))]
    exact ih (fun y hy => hpre y (List.mem_cons_of_mem x hy))

theorem exists_first_match (ch : ChallengeRequest) (records : List Record)
    (hex : ∃ r ∈ records, recordMatches ch r) :
    ∃ pre r post, records = pre ++ r :: post ∧
      (∀ x ∈ pre, ¬ recordMatches ch x) ∧ recordMatches ch r := by
  induction records with
  | nil => obtain ⟨r, hr, _⟩ := hex; cases hr
  | cons a rest ih =>
    by_cases ha : recordMatches ch a
    · exact ⟨[], a, rest, rfl, fun x hx => absurd hx (List.not_mem_nil x), ha⟩
    · obtain ⟨r, hr, hm⟩ := hex
      have hrest : ∃ r ∈ rest, recordMatches ch r := by
        rcases List.mem_cons.mp hr with h | h
        · subst h; exact absurd hm ha
        · exact ⟨r, h, hm⟩
      obtain ⟨pre, r1, post, he, hp, hm1⟩ := ih hrest
      refine ⟨a :: pre, r1, post, by rw [he]; rfl, ?_, hm1⟩
      intro x hx
      rcases List.mem_cons.mp hx with h | h
      · subst h; exact ha
      · exact hp x h

theorem Present_createRecord_mem (env : Env) (ch : ChallengeRequest) (zone : GoString)
    (req : RecordRequest) (hmem : Call.createRecord zone req ∈ (Present env ch).2) :
    zone = UnFqdn ch.ResolvedZone ∧
      req = ⟨UnFqdn (TrimSuffix ch.ResolvedFQDN ch.ResolvedZone), "TXT".toList, ch.Key, 120⟩ := by
  rcases hcfg : (loadConfig env ch.Config).2 with _ | e
  · rcases hcl : env.newClient (getToken env (loadConfig env ch.Config).1).1.1 with e | client
    · rw [Present_client_error env ch e hcfg hcl, getToken_calls] at hmem
      simp at hmem
    · rw [Present_client_ok env ch client hcfg hcl, getToken_calls] at hmem
      simp at hmem
      exact hmem
  · rw [Present_decode_error env ch e hcfg] at hmem
    simp at hmem

theorem loadConfig_congr (env1 env2 : Env) (cfgJSON : Option GoString)
    (h : env2.unmarshal = env1.unmarshal) :
    loadConfig env2 cfgJSON = loadConfig env1 cfgJSON := by
  unfold loadConfig
  rw [h]

theorem getToken_token_of_error (env : Env) (cfg : anexiaDNSProviderConfig)
    (h : (getToken env cfg).1.2 ≠ none) : (getToken env cfg).1.1 = [] := by
  unfold getToken at h ⊢
  rcases hg : env.getSecret cfg.SecretRefNamespace cfg.SecretRef with e | data
  · rfl
  · rcases hd : data cfg.SecretKey with _ | token
    · simp only [hd]
    · simp [hg, hd] at h

theorem Present_calls (env : Env) (ch : ChallengeRequest) (c : Call)
    (hc : c ∈ (Present env ch).2) : c.isListRecords = false ∧ c.isDeleteRecord = false := by
  rcases hcfg : (loadConfig env ch.Config).2 with _ | e
  · rcases hcl : env.newClient (getToken env (loadConfig env ch.Config).1).1.1 with e | client
    · rw [Present_client_error env ch e hcfg hcl, getToken_calls] at hc
      simp at hc
      rcases hc with h | h <;> subst h <;> exact ⟨rfl, rfl⟩
    · rw [Present_client_ok env ch client hcfg hcl, getToken_calls] at hc
      simp at hc
      rcases hc with h | h | h <;> subst h <;> exact ⟨rfl, rfl⟩
  · rw [Present_decode_error env ch e hcfg] at hc
    simp at hc

/-! ## The claims -/

/-- C1: when the listed records contain at least one record whose name is the
request's host name and whose quote-stripped data is the key, `CleanUp` issues
exactly one `DeleteRecord` call, on the zone without its trailing dot, for the
identifier of the first such record in list order, and its result is the result
of that call (nil when the delete succeeds). -/
theorem C1_cleanup_deletes_first_match (env : Env) (ch : ChallengeRequest)
    (client : Client) (records : List Record)
    (hcfg : (loadConfig env ch.Config).2 = none)
    (hcl : env.newClient (getToken env (loadConfig env ch.Config).1).1.1 = .ok client)
    (hlist : env.listRecords client (UnFqdn ch.ResolvedZone) = .ok records)
    (hex : ∃ r ∈ records, r.Name = UnFqdn (TrimSuffix ch.ResolvedFQDN ch.ResolvedZone)
      ∧ strippedRData r.RData = ch.Key) :
    ∃ pre r post, records = pre ++ r :: post ∧
      (∀ x ∈ pre, ¬ (x.Name = UnFqdn (TrimSuffix ch.ResolvedFQDN ch.ResolvedZone)
        ∧ strippedRData x.RData = ch.Key)) ∧
      (r.Name = UnFqdn (TrimSuffix ch.ResolvedFQDN ch.ResolvedZone)
        ∧ strippedRData r.RData = ch.Key) ∧
      (CleanUp env ch).2.filter Call.isDeleteRecord =
        [Call.deleteRecord (UnFqdn ch.ResolvedZone) r.Identifier] ∧
      (CleanUp env ch).1 = env.deleteRecord client (UnFqdn ch.ResolvedZone) r.Identifier ∧
      (env.deleteRecord client (UnFqdn ch.ResolvedZone) r.Identifier = none →
        (CleanUp env ch).1 = none) := by
  obtain ⟨pre, r, post, he, hpre, hr⟩ := exists_first_match ch records hex
  refine ⟨pre, r, post, he, hpre, hr, ?_, ?_, ?_⟩
  · rw [CleanUp_list_ok env ch client records hcfg hcl hlist, getToken_calls, he,
      cleanUpLoop_first_match env client ch pre r post hpre hr]
    simp [Call.isDeleteRecord]
  · rw [CleanUp_list_ok env ch client records hcfg hcl hlist, he,
      cleanUpLoop_first_match env client ch pre r post hpre hr]
  · intro hdel
    rw [CleanUp_list_ok env ch client records hcfg hcl hlist, he,
      cleanUpLoop_first_match env client ch pre r post hpre hr]
    exact hdel

/-- Witness of C1: the scenario of the specification; record `r1` is deleted, `r2`
is not. -/
theorem C1_cleanup_deletes_first_match_witness :
    (∃ pre r post, demoRecords = pre ++ r :: post ∧
      (∀ x ∈ pre, ¬ (x.Name = UnFqdn (TrimSuffix demoRequest.ResolvedFQDN demoRequest.ResolvedZone)
        ∧ strippedRData x.RData = demoRequest.Key)) ∧
      (r.Name = UnFqdn (TrimSuffix demoRequest.ResolvedFQDN demoRequest.ResolvedZone)
        ∧ strippedRData r.RData = demoRequest.Key) ∧
      (CleanUp demoEnv demoRequest).2.filter Call.isDeleteRecord =
        [Call.deleteRecord (UnFqdn demoRequest.ResolvedZone) r.Identifier] ∧
      (CleanUp demoEnv demoRequest).1 =
        demoEnv.deleteRecord ⟨0⟩ (UnFqdn demoRequest.ResolvedZone) r.Identifier ∧
      (demoEnv.deleteRecord ⟨0⟩ (UnFqdn demoRequest.ResolvedZone) r.Identifier = none →
        (CleanUp demoEnv demoRequest).1 = none)) ∧
    (CleanUp demoEnv demoRequest).2.filter Call.isDeleteRecord =
      [Call.deleteRecord "example.com".toList "r1".toList] ∧
    (CleanUp demoEnv demoRequest).1 = none :=
  ⟨C1_cleanup_deletes_first_match demoEnv demoRequest ⟨0⟩ demoRecords (by decide) rfl rfl
      ⟨⟨"_acme-challenge".toList, quoteStr ++ "abc123".toList ++ quoteStr, "r1".toList⟩,
        by decide, by decide⟩,
    by decide, by decide⟩

/-- C3: when config decoding and client construction succeed, `Present` makes
exactly one `CreateRecord` call, on the zone without its trailing dot, for the
record with the host name, type `TXT`, the key as data and TTL 120, and returns
what that call returns (nil on success, the call's error otherwise). -/
theorem C3_present_creates_record (env : Env) (ch : ChallengeRequest) (client : Client)
    (hcfg : (loadConfig env ch.Config).2 = none)
    (hcl : env.newClient (getToken env (loadConfig env ch.Config).1).1.1 = .ok client) :
    (Present env ch).2.filter Call.isCreateRecord =
      [Call.createRecord (UnFqdn ch.ResolvedZone)
        ⟨UnFqdn (TrimSuffix ch.ResolvedFQDN ch.ResolvedZone), "TXT".toList, ch.Key, 120⟩] ∧
    (Present env ch).1 =
      env.newRecord client (UnFqdn ch.ResolvedZone)
        ⟨UnFqdn (TrimSuffix ch.ResolvedFQDN ch.ResolvedZone), "TXT".toList, ch.Key, 120⟩ := by
  rw [Present_client_ok env ch client hcfg hcl, getToken_calls]
  simp [Call.isCreateRecord]

/-- Witness of C3: the scenario of the specification. -/
theorem C3_present_creates_record_witness :
    (Present demoEnv demoRequest).2.filter Call.isCreateRecord =
      [Call.createRecord "example.com".toList
        ⟨"_acme-challenge".toList, "TXT".toList, "abc123".toList, 120⟩] ∧
    (Present demoEnv demoRequest).1 = none :=
  C3_present_creates_record demoEnv demoRequest ⟨0⟩ (by decide) rfl

/-- C4: when no listed record has both the request's host name and quote-stripped
data equal to the key, `CleanUp` issues no `DeleteRecord` call and returns the
error `could not find and delete record for <ResolvedFQDN>`. -/
theorem C4_cleanup_not_found (env : Env) (ch : ChallengeRequest)
    (client : Client) (records : List Record)
    (hcfg : (loadConfig env ch.Config).2 = none)
    (hcl : env.newClient (getToken env (loadConfig env ch.Config).1).1.1 = .ok client)
    (hlist : env.listRecords client (UnFqdn ch.ResolvedZone) = .ok records)
    (hno : ∀ r ∈ records, ¬ (r.Name = UnFqdn (TrimSuffix ch.ResolvedFQDN ch.ResolvedZone)
      ∧ strippedRData r.RData = ch.Key)) :
    (CleanUp env ch).1 =
      some ("could not find and delete record for ".toList ++ ch.ResolvedFQDN) ∧
    (CleanUp env ch).2.filter Call.isDeleteRecord = [] := by
  rw [CleanUp_list_ok env ch client records hcfg hcl hlist, getToken_calls,
    cleanUpLoop_no_match env client ch records hno]
  simp [Call.isDeleteRecord]

/-- Witness of C4: a record with the name but other data and a record with the
data but another name are both left alone. -/
theorem C4_cleanup_not_found_witness :
    (CleanUp nearMissEnv demoRequest).1 =
      some "could not find and delete record for _acme-challenge.example.com.".toList ∧
    (CleanUp nearMissEnv demoRequest).2.filter Call.isDeleteRecord = [] :=
  C4_cleanup_not_found nearMissEnv demoRequest ⟨0⟩ _ (by decide) rfl rfl (by decide)

/-- C6: for a request with `ResolvedFQDN = h ++ "." ++ z` and `ResolvedZone = z`
the computed record name is `h`; it is the name `Present` puts in the record it
creates and the name the loop of `CleanUp` compares record names with. -/
theorem C6_name_stripping (h z : GoString) :
    UnFqdn (TrimSuffix (h ++ ['.'] ++ z) z) = h ∧
    (∀ (env : Env) (key : GoString) (cfg : Option GoString) (client : Client),
      (loadConfig env cfg).2 = none →
      env.newClient (getToken env (loadConfig env cfg).1).1.1 = .ok client →
      (Present env ⟨h ++ ['.'] ++ z, z, key, cfg⟩).2.filter Call.isCreateRecord =
        [Call.createRecord (UnFqdn z) ⟨h, "TXT".toList, key, 120⟩]) ∧
    (∀ (env : Env) (client : Client) (key : GoString) (cfg : Option GoString)
        (r : Record) (rest : List Record),
      cleanUpLoop env client ⟨h ++ ['.'] ++ z, z, key, cfg⟩ (r :: rest) =
        if r.Name = h ∧ strippedRData r.RData = key then
          (env.deleteRecord client (UnFqdn z) r.Identifier,
            [Call.deleteRecord (UnFqdn z) r.Identifier])
        else cleanUpLoop env client ⟨h ++ ['.'] ++ z, z, key, cfg⟩ rest) := by
  have hname : UnFqdn (TrimSuffix (h ++ ['.'] ++ z) z) = h := by
    rw [TrimSuffix_append, UnFqdn_append_dot]
  refine ⟨hname, ?_, ?_⟩
  · intro env key cfg client hcfg hcl
    rw [Present_client_ok env ⟨h ++ ['.'] ++ z, z, key, cfg⟩ client hcfg hcl, getToken_calls]
    simp only [hname]
    simp [Call.isCreateRecord]
  · intro env client key cfg r rest
    by_cases hm : r.Name = h ∧ strippedRData r.RData = key
    · rw [if_pos hm]
      exact cleanUpLoop_hit env client _ r rest (by
        unfold recordMatches
        simp only [hname]
        exact hm)
    · rw [if_neg hm]
      exact cleanUpLoop_skip env client _ r rest (by
        unfold recordMatches
        simp only [hname]
        exact hm)

/-- Witness of C6: the name-stripping example of the specification. -/
theorem C6_name_stripping_witness :
    UnFqdn (TrimSuffix "_acme-challenge.example.com.".toList "example.com.".toList)
      = "_acme-challenge".toList :=
  (C6_name_stripping "_acme-challenge".toList "example.com.".toList).1

/-- C5, the case the code misses: record data consisting of the single
character `"` is not wrapped in a pair of quotes, yet the workaround turns it
into the empty string (one character shorter, not two, and not unchanged), so
`CleanUp` for the empty key deletes such a record. -/
theorem C5_lone_quote_is_stripped :
    strippedRData quoteStr = [] ∧
    quoteStr.length = 1 ∧
    (CleanUp loneQuoteEnv emptyKeyRequest).2.filter Call.isDeleteRecord =
      [Call.deleteRecord "example.com".toList "r9".toList] ∧
    (CleanUp loneQuoteEnv emptyKeyRequest).1 = none := by
  decide

/-- C10: let `Present` have sent the record request `req` for a request `ch`, and
let the list returned to `CleanUp` for `ch` contain a record `r` with the name of
`req`.  If the key does not both begin and end with a quote and the data of `r`
is the data of `req`, verbatim or wrapped in one pair of quotes, then `CleanUp`
issues a `DeleteRecord` call for a listed record and returns the result of that
call, not the not-found error.  If the key does begin and end with a quote, a
record carrying the data of `req` verbatim is not matched: alone in the list it
leads to the not-found error and no delete. -/
theorem C10_present_cleanup_round_trip (envP env : Env) (ch : ChallengeRequest)
    (client : Client) (records : List Record) (zone : GoString) (req : RecordRequest)
    (r : Record)
    (hsent : Call.createRecord zone req ∈ (Present envP ch).2)
    (hcfg : (loadConfig env ch.Config).2 = none)
    (hcl : env.newClient (getToken env (loadConfig env ch.Config).1).1.1 = .ok client)
    (hlist : env.listRecords client (UnFqdn ch.ResolvedZone) = .ok records)
    (hr : r ∈ records) (hname : r.Name = req.Name) :
    (¬ (HasPrefix ch.Key quoteStr = true ∧ HasSuffix ch.Key quoteStr = true) →
      (r.RData = req.RData ∨ r.RData = quoteStr ++ req.RData ++ quoteStr) →
      ∃ r1 ∈ records,
        (CleanUp env ch).2.filter Call.isDeleteRecord = [Call.deleteRecord zone r1.Identifier] ∧
        (CleanUp env ch).1 = env.deleteRecord client zone r1.Identifier) ∧
    ((HasPrefix ch.Key quoteStr = true ∧ HasSuffix ch.Key quoteStr = true) →
      r.RData = req.RData →
      strippedRData r.RData ≠ ch.Key ∧
      (records = [r] →
        (CleanUp env ch).1 =
          some ("could not find and delete record for ".toList ++ ch.ResolvedFQDN) ∧
        (CleanUp env ch).2.filter Call.isDeleteRecord = [])) := by
  obtain ⟨hzone, hreq⟩ := Present_createRecord_mem envP ch zone req hsent
  subst hzone
  subst hreq
  simp only at hname
  refine ⟨?_, ?_⟩
  · intro hkey hdata
    have hm : recordMatches ch r := by
      refine ⟨hname, ?_⟩
      rcases hdata with hd | hd
      · rw [hd]; exact strippedRData_unwrapped ch.Key hkey
      · rw [hd]; exact strippedRData_wrapped ch.Key
    obtain ⟨pre, r1, post, he, hpre, hr1⟩ := exists_first_match ch records ⟨r, hr, hm⟩
    refine ⟨r1, by rw [he]; simp, ?_, ?_⟩
    · rw [CleanUp_list_ok env ch client records hcfg hcl hlist, getToken_calls, he,
        cleanUpLoop_first_match env client ch pre r1 post hpre hr1]
      simp [Call.isDeleteRecord]
    · rw [CleanUp_list_ok env ch client records hcfg hcl hlist, he,
        cleanUpLoop_first_match env client ch pre r1 post hpre hr1]
  · intro hkey hdata
    have hne : strippedRData r.RData ≠ ch.Key := by
      intro heq
      have hlt := strippedRData_length_lt ch.Key hkey
      simp only at hdata
      rw [hdata] at heq
      rw [heq] at hlt
      exact Nat.lt_irrefl _ hlt
    refine ⟨hne, ?_⟩
    intro hone
    have hno : ∀ x ∈ records, ¬ recordMatches ch x := by
      intro x hx hmx
      rw [hone] at hx
      rw [List.mem_singleton.mp hx] at hmx
      exact hne hmx.2
    rw [CleanUp_list_ok env ch client records hcfg hcl hlist, getToken_calls,
      cleanUpLoop_no_match env client ch records hno]
    simp [Call.isDeleteRecord]

/-- Witness of C10: the record `Present` sends for the scenario request comes back
wrapped in quotes as the first record of `demoRecords`. -/
theorem C10_present_cleanup_round_trip_witness :
    ∃ r1 ∈ demoRecords,
      (CleanUp demoEnv demoRequest).2.filter Call.isDeleteRecord =
        [Call.deleteRecord "example.com".toList r1.Identifier] ∧
      (CleanUp demoEnv demoRequest).1 =
        demoEnv.deleteRecord ⟨0⟩ "example.com".toList r1.Identifier :=
  (C10_present_cleanup_round_trip demoEnv demoEnv demoRequest ⟨0⟩ demoRecords
    "example.com".toList ⟨"_acme-challenge".toList, "TXT".toList, "abc123".toList, 120⟩
    ⟨"_acme-challenge".toList, quoteStr ++ "abc123".toList ++ quoteStr, "r1".toList⟩
    (by decide) (by decide) rfl rfl (by decide) rfl).1 (by decide) (Or.inr rfl)

/-- C7: `loadConfig` returns the all-empty config and no error for an absent blob;
for a present blob it returns what the decoder produced and no error when
decoding succeeds, and the error `error decoding solver config: ` followed by the
decoder's error when decoding fails; it returns an error exactly when the blob is
present and decoding fails; `Present` and `CleanUp` return that error without
calling any collaborator. -/
theorem C7_loadConfig (env : Env) :
    loadConfig env none = (⟨[], [], [], []⟩, none) ∧
    (∀ cfgJSON : Option GoString, (loadConfig env cfgJSON).2 ≠ none ↔
      ∃ raw, cfgJSON = some raw ∧ (env.unmarshal raw ⟨[], [], [], []⟩).2 ≠ none) ∧
    (∀ raw cfg, env.unmarshal raw ⟨[], [], [], []⟩ = (cfg, none) →
      loadConfig env (some raw) = (cfg, none)) ∧
    (∀ raw cfg err, env.unmarshal raw ⟨[], [], [], []⟩ = (cfg, some err) →
      (loadConfig env (some raw)).2 = some ("error decoding solver config: ".toList ++ err)) ∧
    (∀ (ch : ChallengeRequest) (err : GoError), (loadConfig env ch.Config).2 = some err →
      Present env ch = (some err, []) ∧ CleanUp env ch = (some err, [])) := by
  refine ⟨rfl, ?_, ?_, ?_, ?_⟩
  · intro cfgJSON
    cases cfgJSON with
    | none => simp [loadConfig]
    | some raw =>
      simp only [loadConfig]
      rcases h : env.unmarshal raw ⟨[], [], [], []⟩ with ⟨c, _ | e⟩ <;> simp [h]
  · intro raw cfg h
    simp only [loadConfig, h]
  · intro raw cfg err h
    simp only [loadConfig, h]
  · intro ch err h
    exact ⟨Present_decode_error env ch err h, CleanUp_decode_error env ch err h⟩

/-- Witness of C7: an undecodable blob stops `Present` and `CleanUp` before any
collaborator is called. -/
theorem C7_loadConfig_witness :
    Present demoEnv badConfigRequest =
      (some "error decoding solver config: unexpected end of JSON input".toList, []) ∧
    CleanUp demoEnv badConfigRequest =
      (some "error decoding solver config: unexpected end of JSON input".toList, []) :=
  (C7_loadConfig demoEnv).2.2.2.2 badConfigRequest _ (by decide)

/-- C8, as stated, fails: for a secret that does not exist the store answers
`secrets "missing" not found`; `getToken` returns exactly that error, which does
not contain the namespace `cert-manager`. -/
theorem C8_lookup_error_is_the_stores :
    (getToken demoEnv missingSecretConfig).1 =
      ([], some ("secrets ".toList ++ quoteStr ++ "missing".toList ++ quoteStr
        ++ " not found".toList)) ∧
    ¬ (missingSecretConfig.SecretRefNamespace <:+:
        ("secrets ".toList ++ quoteStr ++ "missing".toList ++ quoteStr
          ++ " not found".toList)) := by
  decide

/-- C8, amended: `getToken` performs a single lookup of the secret `SecretRef` in
namespace `SecretRefNamespace`; if the lookup fails it returns the empty token and
the error of the store unchanged; if the secret lacks the field `SecretKey` it
returns the empty token and the error `key <SecretKey> not found in secret data`;
if the field is present it returns its value and a nil error; the error is nil
exactly in the last case. -/
theorem C8_getToken (env : Env) (cfg : anexiaDNSProviderConfig) :
    (getToken env cfg).2 = [Call.getSecret cfg.SecretRefNamespace cfg.SecretRef] ∧
    (∀ err, env.getSecret cfg.SecretRefNamespace cfg.SecretRef = .error err →
      (getToken env cfg).1 = ([], some err)) ∧
    (∀ data, env.getSecret cfg.SecretRefNamespace cfg.SecretRef = .ok data →
      data cfg.SecretKey = none →
      (getToken env cfg).1 =
        ([], some ("key ".toList ++ cfg.SecretKey ++ " not found in secret data".toList))) ∧
    (∀ data token, env.getSecret cfg.SecretRefNamespace cfg.SecretRef = .ok data →
      data cfg.SecretKey = some token →
      (getToken env cfg).1 = (token, none)) ∧
    ((getToken env cfg).1.2 = none ↔
      ∃ data token, env.getSecret cfg.SecretRefNamespace cfg.SecretRef = .ok data ∧
        data cfg.SecretKey = some token) := by
  refine ⟨getToken_calls env cfg, ?_, ?_, ?_, ?_⟩
  · intro err h
    simp only [getToken, h]
  · intro data h hd
    simp only [getToken, h, hd]
  · intro data token h hd
    simp only [getToken, h, hd]
  · unfold getToken
    rcases h : env.getSecret cfg.SecretRefNamespace cfg.SecretRef with e | data
    · simp
    · rcases hd : data cfg.SecretKey with _ | token <;> simp [hd]

/-- Witness of C8: the three outcomes on the store of `demoEnv`. -/
theorem C8_getToken_witness :
    (getToken demoEnv goodSecretConfig).1 = ("s3cr3t".toList, none) ∧
    (getToken demoEnv (loadConfig demoEnv passwordConfigRequest.Config).1).1 =
      ([], some "key password not found in secret data".toList) ∧
    (getToken demoEnv goodSecretConfig).2 =
      [Call.getSecret "cert-manager".toList "anexia".toList] :=
  ⟨(C8_getToken demoEnv goodSecretConfig).2.2.2.1 _ _ rfl rfl,
    (C8_getToken demoEnv _).2.2.1 _ rfl rfl,
    (C8_getToken demoEnv goodSecretConfig).1⟩

/-- C9: if `Present` succeeded once and is called again with the same request, the
JSON decoder being the same function, and the second call constructs its client and
the provider accepts its `CreateRecord`, the second call returns nil too.  No call
of `Present` is a `ListRecords` or `DeleteRecord` call, and the outcome of
`Present` is determined by the request and the responses of the decoder, the
secret store, the client constructor and `CreateRecord`. -/
theorem C9_present_repeatable (ch : ChallengeRequest) :
    (∀ (env1 env2 : Env) (client2 : Client),
      (Present env1 ch).1 = none →
      env2.unmarshal = env1.unmarshal →
      env2.newClient (getToken env2 (loadConfig env2 ch.Config).1).1.1 = .ok client2 →
      env2.newRecord client2 (UnFqdn ch.ResolvedZone)
        ⟨UnFqdn (TrimSuffix ch.ResolvedFQDN ch.ResolvedZone), "TXT".toList, ch.Key, 120⟩ = none →
      (Present env2 ch).1 = none) ∧
    (∀ (env : Env) (c : Call), c ∈ (Present env ch).2 →
      c.isListRecords = false ∧ c.isDeleteRecord = false) ∧
    (∀ env1 env2 : Env, env1.unmarshal = env2.unmarshal → env1.getSecret = env2.getSecret →
      env1.newClient = env2.newClient → env1.newRecord = env2.newRecord →
      Present env1 ch = Present env2 ch) := by
  refine ⟨?_, fun env c hc => Present_calls env ch c hc, ?_⟩
  · intro env1 env2 client2 hfirst hdec hcl haccept
    have hcfg1 : (loadConfig env1 ch.Config).2 = none := by
      rcases h : (loadConfig env1 ch.Config).2 with _ | e
      · rfl
      · rw [Present_decode_error env1 ch e h] at hfirst
        cases hfirst
    have hcfg2 : (loadConfig env2 ch.Config).2 = none := by
      rw [loadConfig_congr env1 env2 ch.Config hdec]; exact hcfg1
    rw [Present_client_ok env2 ch client2 hcfg2 hcl]
    exact haccept
  · intro env1 env2 h1 h2 h3 h4
    cases env1
    cases env2
    simp only at h1 h2 h3 h4
    subst h1 h2 h3 h4
    rfl

/-- Witness of C9: the scenario request presented twice to the accepting provider. -/
theorem C9_present_repeatable_witness :
    (Present demoEnv demoRequest).1 = none ∧ (Present nearMissEnv demoRequest).1 = none :=
  ⟨by decide,
    (C9_present_repeatable demoRequest).1 demoEnv nearMissEnv ⟨0⟩ (by decide) rfl rfl rfl⟩

/-- The hypothesis on the empty token in C2 is needed: `Present` and `CleanUp`
discard the error of `getToken`, so with collaborators that accept the empty token
they return nil after a failed lookup or a missing field. -/
theorem credential_error_discarded_if_empty_token_accepted :
    (getToken demoEnv (loadConfig demoEnv demoRequest.Config).1).1 =
      ([], some ("secrets ".toList ++ quoteStr ++ quoteStr ++ " not found".toList)) ∧
    (Present demoEnv demoRequest).1 = none ∧
    (CleanUp demoEnv demoRequest).1 = none ∧
    (getToken demoEnv (loadConfig demoEnv passwordConfigRequest.Config).1).1 =
      ([], some "key password not found in secret data".toList) ∧
    (Present demoEnv passwordConfigRequest).1 = none ∧
    (CleanUp demoEnv passwordConfigRequest).1 = none := by
  decide

/-- C2: a failure of any step makes the call return a non-nil error.  A failure of
config decoding, of client construction, of record creation, of record listing or
of record deletion is returned as it is.  A failure of credential resolution (a
failed secret lookup or a missing secret field) leaves the token empty, and, the
empty token failing downstream as the specification says of the provider client,
`Present` and `CleanUp` return a non-nil error. -/
theorem C2_failures_returned (env : Env) (ch : ChallengeRequest) :
    (∀ err, (loadConfig env ch.Config).2 = some err →
      (Present env ch).1 = some err ∧ (CleanUp env ch).1 = some err) ∧
    ((loadConfig env ch.Config).2 = none →
      (∀ err, env.newClient (getToken env (loadConfig env ch.Config).1).1.1 = .error err →
        (Present env ch).1 = some err ∧ (CleanUp env ch).1 = some err) ∧
      (∀ client, env.newClient (getToken env (loadConfig env ch.Config).1).1.1 = .ok client →
        (∀ err, env.newRecord client (UnFqdn ch.ResolvedZone)
            ⟨UnFqdn (TrimSuffix ch.ResolvedFQDN ch.ResolvedZone), "TXT".toList, ch.Key, 120⟩
              = some err →
          (Present env ch).1 = some err) ∧
        (∀ err, env.listRecords client (UnFqdn ch.ResolvedZone) = .error err →
          (CleanUp env ch).1 = some err) ∧
        (∀ pre r post err,
          env.listRecords client (UnFqdn ch.ResolvedZone) = .ok (pre ++ r :: post) →
          (∀ x ∈ pre, ¬ (x.Name = UnFqdn (TrimSuffix ch.ResolvedFQDN ch.ResolvedZone)
            ∧ strippedRData x.RData = ch.Key)) →
          (r.Name = UnFqdn (TrimSuffix ch.ResolvedFQDN ch.ResolvedZone)
            ∧ strippedRData r.RData = ch.Key) →
          env.deleteRecord client (UnFqdn ch.ResolvedZone) r.Identifier = some err →
          (CleanUp env ch).1 = some err))) ∧
    (emptyTokenFails env →
      (getToken env (loadConfig env ch.Config).1).1.2 ≠ none →
      (Present env ch).1 ≠ none ∧ (CleanUp env ch).1 ≠ none) := by
  have hclerr : (loadConfig env ch.Config).2 = none → ∀ err,
      env.newClient (getToken env (loadConfig env ch.Config).1).1.1 = .error err →
      (Present env ch).1 = some err ∧ (CleanUp env ch).1 = some err := by
    intro hcfg err hcl
    rw [Present_client_error env ch err hcfg hcl, CleanUp_client_error env ch err hcfg hcl]
    exact ⟨rfl, rfl⟩
  refine ⟨?_, ?_, ?_⟩
  · intro err h
    rw [Present_decode_error env ch err h, CleanUp_decode_error env ch err h]
    exact ⟨rfl, rfl⟩
  · intro hcfg
    refine ⟨hclerr hcfg, ?_⟩
    intro client hcl
    refine ⟨?_, ?_, ?_⟩
    · intro err hnew
      rw [Present_client_ok env ch client hcfg hcl]
      exact hnew
    · intro err hlist
      rw [CleanUp_list_error env ch client err hcfg hcl hlist]
    · intro pre r post err hlist hpre hr hdel
      rw [CleanUp_list_ok env ch client _ hcfg hcl hlist,
        cleanUpLoop_first_match env client ch pre r post hpre hr]
      exact hdel
  · intro hempty htok
    rcases hcfg : (loadConfig env ch.Config).2 with _ | e
    · have htoken := getToken_token_of_error env _ htok
      rcases hcl : env.newClient [] with e | client
      · rw [← htoken] at hcl
        obtain ⟨hp, hc⟩ := hclerr hcfg e hcl
        rw [hp, hc]
        exact ⟨Option.some_ne_none e, Option.some_ne_none e⟩
      · obtain ⟨hnew, hlist⟩ := hempty client hcl
        obtain ⟨e, he⟩ := hlist (UnFqdn ch.ResolvedZone)
        rw [← htoken] at hcl
        rw [Present_client_ok env ch client hcfg hcl,
          CleanUp_list_error env ch client e hcfg hcl he]
        exact ⟨hnew _ _, Option.some_ne_none e⟩
    · rw [Present_decode_error env ch e hcfg, CleanUp_decode_error env ch e hcfg]
      exact ⟨Option.some_ne_none e, Option.some_ne_none e⟩

/-- Witness of C2: the secret lookup fails (there is no config blob, so the secret
`""` is looked up); with a constructor that refuses the empty token, and with a
provider that refuses the client built from it, `Present` and `CleanUp` return a
non-nil error. -/
theorem C2_failures_returned_witness :
    (getToken strictClientEnv (loadConfig strictClientEnv demoRequest.Config).1).1.2 ≠ none ∧
    ((Present strictClientEnv demoRequest).1 ≠ none ∧
      (CleanUp strictClientEnv demoRequest).1 ≠ none) ∧
    (getToken unauthorizedEnv (loadConfig unauthorizedEnv demoRequest.Config).1).1.2 ≠ none ∧
    ((Present unauthorizedEnv demoRequest).1 ≠ none ∧
      (CleanUp unauthorizedEnv demoRequest).1 ≠ none) ∧
    (Present strictClientEnv demoRequest).1 = some "could not configure client".toList ∧
    (CleanUp unauthorizedEnv demoRequest).1 = some "401 Unauthorized".toList :=
  ⟨by decide,
    (C2_failures_returned strictClientEnv demoRequest).2.2
      (fun client h => by simp [strictClientEnv] at h) (by decide),
    by decide,
    (C2_failures_returned unauthorizedEnv demoRequest).2.2
      (fun client h => by
        have hc : client = ⟨0⟩ := by
          simp [unauthorizedEnv] at h
          exact h.symm
        subst hc
        exact ⟨fun zone req => by simp [unauthorizedEnv],
          fun zone => ⟨"401 Unauthorized".toList, by simp [unauthorizedEnv]⟩⟩)
      (by decide),
    by decide, by decide⟩

end AnexiaWebhook
